import Mathlib

/-!
Shallow embedding of the multitag library (src/lib.rs and src/data.rs).

The four underlying codec tag objects (id3, metaflac, mp4ameta, opusmeta)
are modelled through the exact surface this crate uses: string-keyed
multimaps for Vorbis and Opus comments, field records for the ID3 and MP4
tags, and explicit result values for the path-based codec readers.
-/

set_option maxHeartbeats 1000000

deriving instance DecidableEq for Except

namespace Multitag

/- ## Generic association-list store

Models the hash-map backed key/value stores of the metaflac, mp4ameta and
opusmeta tag objects.  Keys are unique in any store built from these
operations; lookup returns the first matching entry. -/

/-- Lookup of a key, as the codec get operations do. -/
def getEntry {α β : Type} [DecidableEq α] : List (α × β) → α → Option β
  | [], _ => none
  | (k2, v) :: rest, k => if k2 = k then some v else getEntry rest k

/-- Insert or replace an entry, as metaflac set_vorbis and mp4ameta set_data do. -/
def setEntry {α β : Type} [DecidableEq α] : List (α × β) → α → β → List (α × β)
  | [], k, v => [(k, v)]
  | (k2, v2) :: rest, k, v => if k2 = k then (k, v) :: rest else (k2, v2) :: setEntry rest k v

/-- Remove every entry under a key, as remove_vorbis / remove_entries / remove_data_of do. -/
def removeEntry {α β : Type} [DecidableEq α] : List (α × β) → α → List (α × β)
  | [], _ => []
  | (k2, v2) :: rest, k => if k2 = k then removeEntry rest k else (k2, v2) :: removeEntry rest k

/-- Append one value under a key, as opusmeta add_one does: push onto the
existing value list, or create a singleton entry. -/
def addOne {α β : Type} [DecidableEq α] : List (α × List β) → α → β → List (α × List β)
  | [], k, v => [(k, [v])]
  | (k2, vs) :: rest, k, v =>
      if k2 = k then (k2, vs ++ [v]) :: rest else (k2, vs) :: addOne rest k v

/- ## Decimal digit rendering

Models the decimal rendering of Rust format! with zero-pad width specifiers
as used in Tag::set_date. -/

/-- Fuel-driven big-endian decimal digit characters of a natural number. -/
def digitsCore : Nat → Nat → List Char → List Char
  | 0, _, acc => acc
  | fuel + 1, n, acc =>
      if n < 10 then Nat.digitChar n :: acc
      else digitsCore fuel (n / 10) (Nat.digitChar (n % 10) :: acc)

/-- Big-endian decimal digit characters of a natural number; 0 renders as "0". -/
def natDigits (n : Nat) : List Char := digitsCore (n + 1) n []

/-- Left-pad a digit string with zeros to a minimum width, as the Rust
formatter zero-fill does. -/
def padZeros (width : Nat) (ds : List Char) : List Char :=
  List.replicate (width - ds.length) '0' ++ ds

/-- Rust format! {:04} on an i32: zero-fill to minimum total width 4, the
sign counting toward the width and printed before the fill. -/
def fmtInt04 (n : Int) : List Char :=
  if 0 ≤ n then padZeros 4 (natDigits n.toNat)
  else '-' :: padZeros 3 (natDigits (-n).toNat)

/-- Rust format! {:02} on a u8: zero-fill to minimum width 2. -/
def fmtNat02 (n : Nat) : List Char := padZeros 2 (natDigits n)

/-- Numeric value of a decimal digit character. -/
def digitVal (c : Char) : Nat := c.toNat - 48

/-- Value of a big-endian decimal digit character string. -/
def decodeDigits (l : List Char) : Nat := l.foldl (fun a c => 10 * a + digitVal c) 0

/- ## Data model (src/data.rs) -/

/-- Format-neutral picture: raw bytes plus a free-text MIME type. -/
structure Picture where
  data : List Nat
  mime_type : String
  deriving DecidableEq

/-- Album snapshot returned by get_album_info. -/
structure Album where
  title : Option String := none
  artist : Option String := none
  cover : Option Picture := none
  deriving DecidableEq

/-- ID3v2.4 timestamp: year required, the five remaining components optional. -/
structure Timestamp where
  year : Int
  month : Option Nat := none
  day : Option Nat := none
  hour : Option Nat := none
  minute : Option Nat := none
  second : Option Nat := none
  deriving DecidableEq

/-- Kind discriminator of an id3 codec error; the crate only inspects NoTag. -/
inductive Id3ErrorKind where
  | NoTag
  | Other (code : Nat)
  deriving DecidableEq

/-- An id3 codec error. -/
structure Id3Error where
  kind : Id3ErrorKind
  deriving DecidableEq

/-- Kind discriminator of an mp4ameta codec error; the crate only inspects NoTag. -/
inductive Mp4ErrorKind where
  | NoTag
  | Other (code : Nat)
  deriving DecidableEq

/-- An mp4ameta codec error. -/
structure Mp4Error where
  kind : Mp4ErrorKind
  deriving DecidableEq

/-- A metaflac codec error, never inspected by the crate. -/
structure FlacError where
  code : Nat
  deriving DecidableEq

/-- An opusmeta codec error, never inspected by the crate. -/
structure OpusError where
  code : Nat
  deriving DecidableEq

/-- The crate error enum. -/
inductive Error where
  | NoFileExtension
  | InvalidFileExtension
  | UnsupportedAudioFormat
  | Id3Error (e : Id3Error)
  | FlacError (e : FlacError)
  | Mp4Error (e : Mp4Error)
  | OpusError (e : OpusError)
  | TimestampParseError
  | InvalidImageFormat
  deriving DecidableEq

/-- Picture-type classification shared by the codec picture blocks. -/
inductive PicType where
  | CoverFront
  | Other (code : Nat)
  deriving DecidableEq

/-- True exactly on the cover-front picture type. -/
def isCoverFront : PicType → Bool
  | .CoverFront => true
  | .Other _ => false

/-- MP4 closed artwork format enum (mp4ameta ImgFmt). -/
inductive Mp4ImgFmt where
  | Bmp
  | Jpeg
  | Png
  deriving DecidableEq

/-- MP4 native artwork value (mp4ameta Img): closed format enum plus bytes. -/
structure Mp4Img where
  fmt : Mp4ImgFmt
  data : List Nat
  deriving DecidableEq

/-- TryFrom Picture for Mp4Picture (src/data.rs): exact case-sensitive match
of the MIME string against the three canonical strings, anything else is
InvalidImageFormat. -/
def Mp4Img.tryFromPicture (value : Picture) : Except Error Mp4Img :=
  if value.mime_type = "image/bmp" then .ok { fmt := .Bmp, data := value.data }
  else if value.mime_type = "image/jpeg" then .ok { fmt := .Jpeg, data := value.data }
  else if value.mime_type = "image/png" then .ok { fmt := .Png, data := value.data }
  else .error .InvalidImageFormat

/-- From Mp4Picture for Picture (src/data.rs): bytes copied, enum rendered
back to the canonical MIME string. -/
def Picture.fromMp4Img (value : Mp4Img) : Picture :=
  { data := value.data,
    mime_type :=
      match value.fmt with
      | .Bmp => "image/bmp"
      | .Jpeg => "image/jpeg"
      | .Png => "image/png" }

/- ## Native codec tag objects, modelled through the surface the crate uses -/

/-- An id3 picture frame. -/
structure Id3Picture where
  mime_type : String
  picture_type : PicType
  description : String
  data : List Nat
  deriving DecidableEq

/-- The id3 crate tag, through the accessors the crate calls. -/
structure Id3InternalTag where
  title : Option String := none
  artist : Option String := none
  album : Option String := none
  album_artist : Option String := none
  date_released : Option Timestamp := none
  pictures : List Id3Picture := []
  deriving DecidableEq

/-- A metaflac picture block. -/
structure FlacPicture where
  picture_type : PicType
  mime_type : String
  data : List Nat
  deriving DecidableEq

/-- The metaflac tag: Vorbis comment multimap plus picture blocks. -/
structure FlacInternalTag where
  comments : List (String × List String) := []
  pictures : List FlacPicture := []
  deriving DecidableEq

/-- An mp4ameta data atom payload; the crate stores and reads Utf8 payloads. -/
inductive Mp4Data where
  | Utf8 (s : String)
  | OtherData (bytes : List Nat)
  deriving DecidableEq

/-- mp4ameta Data::into_string: some exactly on a Utf8 payload. -/
def Mp4Data.intoString : Mp4Data → Option String
  | .Utf8 s => some s
  | .OtherData _ => none

/-- The mp4ameta tag, through the accessors the crate calls; dataAtoms keys
are fourcc byte quadruples. -/
structure Mp4InternalTag where
  title : Option String := none
  artist : Option String := none
  album : Option String := none
  album_artist : Option String := none
  artworks : List Mp4Img := []
  dataAtoms : List (List Nat × Mp4Data) := []
  deriving DecidableEq

/-- An opusmeta picture. -/
structure OpusPicture where
  picture_type : PicType := .Other 0
  mime_type : String := ""
  data : List Nat := []
  deriving DecidableEq

/-- The opusmeta tag: comment multimap plus pictures. -/
structure OpusInternalTag where
  comments : List (String × List String) := []
  pictures : List OpusPicture := []
  deriving DecidableEq

/-- The fourcc of the custom date atom, [169, 100, 97, 121] in lib.rs. -/
def DATE_FOURCC : List Nat := [169, 100, 97, 121]

/- ## Timestamp text conversion -/

/-- Split a character list on a separator character. -/
def splitOnAux (c : Char) : List Char → List Char → List (List Char)
  | [], cur => [cur.reverse]
  | x :: rest, cur =>
      if x = c then cur.reverse :: splitOnAux c rest []
      else splitOnAux c rest (x :: cur)

/-- Split a character list on a separator character. -/
def splitOn (c : Char) (l : List Char) : List (List Char) := splitOnAux c l []

/-- Parse a nonempty all-digit character list as a natural number. -/
def parseNatChars (l : List Char) : Option Nat :=
  if l.isEmpty then none
  else if l.all Char.isDigit then some (decodeDigits l) else none

/-- Parse the clock part THH:MM or THH:MM:SS of the timestamp grammar. -/
def parseClockChars (l : List Char) : Option (Nat × Nat × Option Nat) :=
  match splitOn ':' l with
  | [h, mi] => do
      let hv ← parseNatChars h
      let mv ← parseNatChars mi
      some (hv, mv, none)
  | [h, mi, s] => do
      let hv ← parseNatChars h
      let mv ← parseNatChars mi
      let sv ← parseNatChars s
      some (hv, mv, some sv)
  | _ => none

/-- Parse the calendar part YYYY, YYYY-MM or YYYY-MM-DD of the timestamp grammar. -/
def parseCalendarChars (l : List Char) : Option (Int × Option Nat × Option Nat) :=
  match splitOn '-' l with
  | [y] => (parseNatChars y).map (fun yv => ((yv : Int), none, none))
  | [y, m] => do
      let yv ← parseNatChars y
      let mv ← parseNatChars m
      some ((yv : Int), some mv, none)
  | [y, m, d] => do
      let yv ← parseNatChars y
      let mv ← parseNatChars m
      let dv ← parseNatChars d
      some ((yv : Int), some mv, some dv)
  | _ => none

/-- Modelled from the spec: Timestamp::from_str in src/data.rs delegates to
the external id3 codec timestamp grammar (YYYY, YYYY-MM, YYYY-MM-DD,
optionally followed by THH:MM or THH:MM:SS) and maps any failure to
TimestampParseError; the codec itself is outside the repository. -/
def Timestamp.from_str (s : String) : Except Error Timestamp :=
  match splitOn 'T' s.data with
  | [d] =>
      match parseCalendarChars d with
      | some (y, m, dd) => .ok { year := y, month := m, day := dd }
      | none => .error .TimestampParseError
  | [d, tm] =>
      match parseCalendarChars d, parseClockChars tm with
      | some (y, m, dd), some (h, mi, sec) =>
          .ok { year := y, month := m, day := dd, hour := some h,
                minute := some mi, second := sec }
      | _, _ => .error .TimestampParseError
  | _ => .error .TimestampParseError

/-- The date string built by Tag::set_date for the plain-text formats:
format! with specifier {:04}-{:02}-{:02} applied to year,
month.unwrap_or_default() and day.unwrap_or_default(). -/
def formatDate (t : Timestamp) : String :=
  String.mk (fmtInt04 t.year ++ '-' :: (fmtNat02 (t.month.getD 0) ++ '-' :: fmtNat02 (t.day.getD 0)))

/- ## The Tag facade (src/lib.rs) -/

/-- The crate tag enum, one variant per supported container format. -/
inductive Tag where
  | Id3Tag (inner : Id3InternalTag)
  | VorbisFlacTag (inner : FlacInternalTag)
  | Mp4Tag (inner : Mp4InternalTag)
  | OpusTag (inner : OpusInternalTag)
  deriving DecidableEq

/-- A path extension component: either valid unicode or not. -/
inductive OsStr where
  | valid (s : String)
  | invalid
  deriving DecidableEq

/-- The part of a filesystem path that read_from_path inspects. -/
structure RustPath where
  extension : Option OsStr
  deriving DecidableEq

/-- Outcomes of the four codec path-based readers for a given path. -/
structure CodecResults where
  id3Result : Except Id3Error Id3InternalTag
  flacResult : Except FlacError FlacInternalTag
  mp4Result : Except Mp4Error Mp4InternalTag
  opusResult : Except OpusError OpusInternalTag

/-- The id3 family of extensions in the read_from_path match. -/
def id3Extensions : List String := ["mp3", "wav", "aiff"]

/-- The mp4 family of extensions in the read_from_path match. -/
def mp4Extensions : List String := ["mp4", "m4a", "m4p", "m4b", "m4r", "m4v"]

/-- Tag::read_from_path: extension extraction and validation, dispatch on
the fixed extension table, NoTag recovery for the id3 and mp4 codecs. -/
def Tag.read_from_path (res : CodecResults) (path : RustPath) : Except Error Tag :=
  match path.extension with
  | none => .error .NoFileExtension
  | some .invalid => .error .InvalidFileExtension
  | some (.valid ext) =>
      if ext ∈ id3Extensions then
        match res.id3Result with
        | .error e => if e.kind = .NoTag then .ok (.Id3Tag {}) else .error (.Id3Error e)
        | .ok inner => .ok (.Id3Tag inner)
      else if ext = "flac" then
        match res.flacResult with
        | .error e => .error (.FlacError e)
        | .ok inner => .ok (.VorbisFlacTag inner)
      else if ext ∈ mp4Extensions then
        match res.mp4Result with
        | .error e => if e.kind = .NoTag then .ok (.Mp4Tag {}) else .error (.Mp4Error e)
        | .ok inner => .ok (.Mp4Tag inner)
      else if ext = "opus" then
        match res.opusResult with
        | .error e => .error (.OpusError e)
        | .ok inner => .ok (.OpusTag inner)
      else .error .UnsupportedAudioFormat

/-- Tag::new_empty_id3. -/
def Tag.new_empty_id3 : Tag := .Id3Tag {}

/-- Tag::new_empty_flac. -/
def Tag.new_empty_flac : Tag := .VorbisFlacTag {}

/-- Tag::new_empty_mp4. -/
def Tag.new_empty_mp4 : Tag := .Mp4Tag {}

/-- Tag::get_album_info: per-variant read of album title, album artist and
cover front picture.  Every arm of the source returns Some. -/
def Tag.get_album_info : Tag → Option Album
  | .Id3Tag inner =>
      some { title := inner.album,
             artist := inner.album_artist,
             cover := (inner.pictures.find? fun p => isCoverFront p.picture_type).map
               (fun pic => { data := pic.data, mime_type := pic.mime_type }) }
  | .VorbisFlacTag inner =>
      some { title := (getEntry inner.comments "ALBUM").bind List.head?,
             artist := (getEntry inner.comments "ALBUM_ARTIST").bind List.head?,
             cover := (inner.pictures.find? fun p => isCoverFront p.picture_type).map
               (fun pic => { data := pic.data, mime_type := pic.mime_type }) }
  | .Mp4Tag inner =>
      some { title := inner.album,
             artist := inner.album_artist,
             cover := inner.artworks.head?.map Picture.fromMp4Img }
  | .OpusTag inner =>
      some { title := (getEntry inner.comments "ALBUM").bind List.head?,
             artist := (getEntry inner.comments "ALBUM_ARTIST").bind List.head?,
             cover := (inner.pictures.find? fun p => isCoverFront p.picture_type).map
               (fun pic => { data := pic.data, mime_type := pic.mime_type }) }

/-- Tag::set_album_info.  Mutations happen in place in the source, so the
updated tag is returned together with the Result; on the MP4 arm the
artwork conversion failure aborts after the title and artist writes. -/
def Tag.set_album_info (t : Tag) (album : Album) : Tag × Except Error Unit :=
  match t with
  | .Id3Tag inner =>
      let inner1 := match album.title with
        | some ti => { inner with album := some ti }
        | none => inner
      let inner2 := match album.artist with
        | some ar => { inner1 with album_artist := some ar }
        | none => inner1
      let inner3 := match album.cover with
        | some pic =>
            let kept := inner2.pictures.filter fun p => !isCoverFront p.picture_type
            let newPic : Id3Picture :=
              { mime_type := pic.mime_type, picture_type := .CoverFront,
                description := "", data := pic.data }
            { inner2 with pictures := kept ++ [newPic] }
        | none => inner2
      (.Id3Tag inner3, .ok ())
  | .VorbisFlacTag inner =>
      let inner1 := match album.title with
        | some ti => { inner with comments := setEntry inner.comments "ALBUM" [ti] }
        | none => inner
      let inner2 := match album.artist with
        | some ar =>
            let cs1 := setEntry inner1.comments "ALBUMARTIST" [ar]
            let cs2 := setEntry cs1 "ALBUM ARTIST" [ar]
            let cs3 := setEntry cs2 "ALBUM_ARTIST" [ar]
            { inner1 with comments := cs3 }
        | none => inner1
      let inner3 := match album.cover with
        | some pic =>
            let kept := inner2.pictures.filter fun p => !isCoverFront p.picture_type
            let newPic : FlacPicture :=
              { picture_type := .CoverFront, mime_type := pic.mime_type, data := pic.data }
            { inner2 with pictures := kept ++ [newPic] }
        | none => inner2
      (.VorbisFlacTag inner3, .ok ())
  | .Mp4Tag inner =>
      let inner1 := match album.title with
        | some ti => { inner with album := some ti }
        | none => inner
      let inner2 := match album.artist with
        | some ar => { inner1 with album_artist := some ar }
        | none => inner1
      match album.cover with
      | some pic =>
          match Mp4Img.tryFromPicture pic with
          | .ok img => (.Mp4Tag { inner2 with artworks := [img] }, .ok ())
          | .error e => (.Mp4Tag inner2, .error e)
      | none => (.Mp4Tag inner2, .ok ())
  | .OpusTag inner =>
      let inner1 := match album.title with
        | some ti => { inner with comments := addOne inner.comments "ALBUM" ti }
        | none => inner
      let inner2 := match album.artist with
        | some ar =>
            let cs := addOne (addOne inner1.comments "ALBUMARTIST" ar) "ALBUM_ARTIST" ar
            { inner1 with comments := cs }
        | none => inner1
      let inner3 := match album.cover with
        | some pic =>
            let newPic : OpusPicture :=
              { picture_type := .CoverFront, mime_type := pic.mime_type, data := pic.data }
            { inner2 with pictures := inner2.pictures ++ [newPic] }
        | none => inner2
      (.OpusTag inner3, .ok ())

/-- Tag::remove_all_album_info. -/
def Tag.remove_all_album_info : Tag → Tag
  | .Id3Tag inner =>
      let kept := inner.pictures.filter fun p => !isCoverFront p.picture_type
      .Id3Tag { inner with album := none, album_artist := none, pictures := kept }
  | .VorbisFlacTag inner =>
      let cs1 := removeEntry inner.comments "ALBUM"
      let cs2 := removeEntry cs1 "ALBUMARTIST"
      let cs3 := removeEntry cs2 "ALBUM ARTIST"
      let cs4 := removeEntry cs3 "ALBUM_ARTIST"
      let kept := inner.pictures.filter fun p => !isCoverFront p.picture_type
      .VorbisFlacTag { inner with comments := cs4, pictures := kept }
  | .Mp4Tag inner =>
      .Mp4Tag { inner with album := none, album_artist := none, artworks := [] }
  | .OpusTag inner =>
      let cs1 := removeEntry inner.comments "ALBUM"
      let cs2 := removeEntry cs1 "ALBUMARTIST"
      let cs3 := removeEntry cs2 "ALBUM_ARTIST"
      let kept := inner.pictures.filter fun p => !isCoverFront p.picture_type
      .OpusTag { inner with comments := cs3, pictures := kept }

/-- Tag::title. -/
def Tag.title : Tag → Option String
  | .Id3Tag inner => inner.title
  | .VorbisFlacTag inner => (getEntry inner.comments "TITLE").bind List.head?
  | .Mp4Tag inner => inner.title
  | .OpusTag inner => (getEntry inner.comments "TITLE").bind List.head?

/-- Tag::set_title; note the Opus arm appends with add_one. -/
def Tag.set_title (t : Tag) (title : String) : Tag :=
  match t with
  | .Id3Tag inner => .Id3Tag { inner with title := some title }
  | .VorbisFlacTag inner =>
      .VorbisFlacTag { inner with comments := setEntry inner.comments "TITLE" [title] }
  | .Mp4Tag inner => .Mp4Tag { inner with title := some title }
  | .OpusTag inner =>
      .OpusTag { inner with comments := addOne inner.comments "TITLE" title }

/-- Join a list of strings with the separator used by Tag::artist. -/
def joinSep : List String → String
  | [] => ""
  | [s] => s
  | s :: rest => s ++ "; " ++ joinSep rest

/-- Tag::artist.  The Vorbis arm joins all ARTIST values and filters an
empty joined string to None; the Opus arm joins without the filter. -/
def Tag.artist : Tag → Option String
  | .Id3Tag inner => inner.artist
  | .VorbisFlacTag inner =>
      match getEntry inner.comments "ARTIST" with
      | none => none
      | some vs => if joinSep vs = "" then none else some (joinSep vs)
  | .Mp4Tag inner => inner.artist
  | .OpusTag inner =>
      match getEntry inner.comments "ARTIST" with
      | none => none
      | some vs => some (joinSep vs)

/-- Tag::set_artist; the Opus arm removes existing entries first. -/
def Tag.set_artist (t : Tag) (ar : String) : Tag :=
  match t with
  | .Id3Tag inner => .Id3Tag { inner with artist := some ar }
  | .VorbisFlacTag inner =>
      .VorbisFlacTag { inner with comments := setEntry inner.comments "ARTIST" [ar] }
  | .Mp4Tag inner => .Mp4Tag { inner with artist := some ar }
  | .OpusTag inner =>
      .OpusTag { inner with comments := addOne (removeEntry inner.comments "ARTIST") "ARTIST" ar }

/-- Tag::date. -/
def Tag.date : Tag → Option Timestamp
  | .Id3Tag inner => inner.date_released
  | .VorbisFlacTag inner =>
      ((getEntry inner.comments "DATE").bind List.head?).bind
        (fun s => (Timestamp.from_str s).toOption)
  | .Mp4Tag inner =>
      (getEntry inner.dataAtoms DATE_FOURCC).bind
        (fun d => d.intoString.bind (fun s => (Timestamp.from_str s).toOption))
  | .OpusTag inner =>
      ((getEntry inner.comments "DATE").bind List.head?).bind
        (fun s => (Timestamp.from_str s).toOption)

/-- Tag::set_date: the id3 arm stores the structured timestamp; the other
three arms store the formatted YYYY-MM-DD text. -/
def Tag.set_date (t : Tag) (timestamp : Timestamp) : Tag :=
  match t with
  | .Id3Tag inner => .Id3Tag { inner with date_released := some timestamp }
  | .VorbisFlacTag inner =>
      .VorbisFlacTag { inner with comments := setEntry inner.comments "DATE" [formatDate timestamp] }
  | .Mp4Tag inner =>
      .Mp4Tag { inner with dataAtoms := setEntry inner.dataAtoms DATE_FOURCC (.Utf8 (formatDate timestamp)) }
  | .OpusTag inner =>
      let cs := addOne (removeEntry inner.comments "DATE") "DATE" (formatDate timestamp)
      .OpusTag { inner with comments := cs }

/-- Tag::copy_to: the set_album_info Result is discarded with a let binding
of underscore in the source; the three remaining field groups are then
copied when present on the source. -/
def Tag.copy_to (src : Tag) (other : Tag) : Tag :=
  let other1 := match src.get_album_info with
    | some album => (Tag.set_album_info other album).1
    | none => other
  let other2 := match src.title with
    | some ti => Tag.set_title other1 ti
    | none => other1
  let other3 := match src.artist with
    | some ar => Tag.set_artist other2 ar
    | none => other2
  match src.date with
  | some d => Tag.set_date other3 d
  | none => other3

/- ## Store lemmas -/

theorem getEntry_setEntry_self {α β : Type} [DecidableEq α] (m : List (α × β)) (k : α) (v : β) :
    getEntry (setEntry m k v) k = some v := by
  induction m with
  | nil => simp [setEntry, getEntry]
  | cons e rest ih =>
      obtain ⟨k2, v2⟩ := e
      by_cases h : k2 = k
      · simp [setEntry, getEntry, h]
      · simp [setEntry, getEntry, h, ih]

theorem getEntry_setEntry_ne {α β : Type} [DecidableEq α] (m : List (α × β)) (k k2 : α) (v : β)
    (h : k2 ≠ k) : getEntry (setEntry m k v) k2 = getEntry m k2 := by
  have hne : k ≠ k2 := Ne.symm h
  induction m with
  | nil => simp [setEntry, getEntry, hne]
  | cons e rest ih =>
      obtain ⟨k3, v3⟩ := e
      by_cases h3 : k3 = k
      · subst h3
        simp [setEntry, getEntry, hne]
      · simp [setEntry, getEntry, h3, ih]

theorem getEntry_removeEntry_self {α β : Type} [DecidableEq α] (m : List (α × β)) (k : α) :
    getEntry (removeEntry m k) k = none := by
  induction m with
  | nil => simp [removeEntry, getEntry]
  | cons e rest ih =>
      obtain ⟨k2, v2⟩ := e
      by_cases h : k2 = k
      · simp [removeEntry, getEntry, h, ih]
      · simp [removeEntry, getEntry, h, ih]

theorem getEntry_removeEntry_ne {α β : Type} [DecidableEq α] (m : List (α × β)) (k k2 : α)
    (h : k2 ≠ k) : getEntry (removeEntry m k) k2 = getEntry m k2 := by
  have hne : k ≠ k2 := Ne.symm h
  induction m with
  | nil => simp [removeEntry, getEntry]
  | cons e rest ih =>
      obtain ⟨k3, v3⟩ := e
      by_cases h3 : k3 = k
      · subst h3
        simp [removeEntry, getEntry, ih, hne]
      · simp [removeEntry, getEntry, h3, ih]

theorem getEntry_addOne_self {α β : Type} [DecidableEq α] (m : List (α × List β)) (k : α) (v : β) :
    getEntry (addOne m k v) k = some ((getEntry m k).getD [] ++ [v]) := by
  induction m with
  | nil => simp [addOne, getEntry]
  | cons e rest ih =>
      obtain ⟨k2, vs⟩ := e
      by_cases h : k2 = k
      · simp [addOne, getEntry, h]
      · simp [addOne, getEntry, h, ih]

theorem getEntry_addOne_ne {α β : Type} [DecidableEq α] (m : List (α × List β)) (k k2 : α) (v : β)
    (h : k2 ≠ k) : getEntry (addOne m k v) k2 = getEntry m k2 := by
  have hne : k ≠ k2 := Ne.symm h
  induction m with
  | nil => simp [addOne, getEntry, hne]
  | cons e rest ih =>
      obtain ⟨k3, vs⟩ := e
      by_cases h3 : k3 = k
      · subst h3
        simp [addOne, getEntry, hne]
      · simp [addOne, getEntry, h3, ih]

/- ## Digit lemmas -/

theorem digitsCore_acc (fuel : Nat) : ∀ (n : Nat) (acc : List Char),
    digitsCore fuel n acc = digitsCore fuel n [] ++ acc := by
  induction fuel with
  | zero => intro n acc; simp [digitsCore]
  | succ fuel ih =>
      intro n acc
      by_cases h : n < 10
      · simp [digitsCore, h]
      · simp only [digitsCore, if_neg h]
        rw [ih (n / 10) (Nat.digitChar (n % 10) :: acc), ih (n / 10) [Nat.digitChar (n % 10)]]
        simp

theorem digitsCore_fuel (fuel1 : Nat) : ∀ (fuel2 n : Nat), n < fuel1 → n < fuel2 →
    digitsCore fuel1 n [] = digitsCore fuel2 n [] := by
  induction fuel1 with
  | zero => intro fuel2 n h1; omega
  | succ fuel1 ih =>
      intro fuel2 n h1 h2
      match fuel2, h2 with
      | fuel2 + 1, h2 =>
        by_cases h : n < 10
        · simp [digitsCore, h]
        · simp only [digitsCore, if_neg h]
          rw [digitsCore_acc fuel1, digitsCore_acc fuel2]
          have hd : n / 10 < n := Nat.div_lt_self (by omega) (by omega)
          rw [ih fuel2 (n / 10) (by omega) (by omega)]

theorem natDigits_rec (n : Nat) :
    natDigits n = if n < 10 then [Nat.digitChar n]
      else natDigits (n / 10) ++ [Nat.digitChar (n % 10)] := by
  by_cases h : n < 10
  · simp [natDigits, digitsCore, h]
  · have h1 : natDigits n = digitsCore n (n / 10) [Nat.digitChar (n % 10)] := by
      simp [natDigits, digitsCore, h]
    rw [if_neg h, h1, digitsCore_acc n (n / 10) [Nat.digitChar (n % 10)]]
    congr 1
    rw [digitsCore_fuel n (n / 10 + 1) (n / 10) (by omega) (by omega)]
    rfl

theorem natDigits_ne_nil (n : Nat) : natDigits n ≠ [] := by
  rw [natDigits_rec]
  by_cases h : n < 10 <;> simp [h]

theorem digitVal_digitChar (d : Nat) (h : d < 10) : digitVal (Nat.digitChar d) = d := by
  interval_cases d <;> decide

theorem isDigit_digitChar (d : Nat) (h : d < 10) : (Nat.digitChar d).isDigit = true := by
  interval_cases d <;> decide

theorem natDigits_all_digits (n : Nat) : ∀ c ∈ natDigits n, c.isDigit = true := by
  induction n using Nat.strong_induction_on with
  | _ n ih =>
      intro c hc
      rw [natDigits_rec] at hc
      by_cases h : n < 10
      · rw [if_pos h] at hc
        simp at hc
        subst hc
        exact isDigit_digitChar n h
      · rw [if_neg h] at hc
        rcases List.mem_append.mp hc with h1 | h1
        · exact ih (n / 10) (Nat.div_lt_self (by omega) (by omega)) c h1
        · simp at h1
          subst h1
          exact isDigit_digitChar (n % 10) (Nat.mod_lt n (by omega))

theorem natDigits_length_le (k : Nat) : ∀ n, 0 < k → n < 10 ^ k →
    (natDigits n).length ≤ k := by
  induction k with
  | zero => intro n h; omega
  | succ k ih =>
      intro n _ hn
      rw [natDigits_rec]
      by_cases h : n < 10
      · rw [if_pos h]
        simp
      · rw [if_neg h]
        have hk : 0 < k := by
          by_contra hk
          have : k = 0 := by omega
          subst this
          simp [pow_succ] at hn
          omega
        have hdiv : n / 10 < 10 ^ k := by
          rw [Nat.div_lt_iff_lt_mul (by omega)]
          calc n < 10 ^ (k + 1) := hn
            _ = 10 ^ k * 10 := by rw [pow_succ]
        have := ih (n / 10) hk hdiv
        simp
        omega

theorem decodeDigits_concat (l : List Char) (c : Char) :
    decodeDigits (l ++ [c]) = 10 * decodeDigits l + digitVal c := by
  simp [decodeDigits, List.foldl_append]

theorem decodeDigits_natDigits (n : Nat) : decodeDigits (natDigits n) = n := by
  induction n using Nat.strong_induction_on with
  | _ n ih =>
      rw [natDigits_rec]
      by_cases h : n < 10
      · rw [if_pos h]
        simp [decodeDigits]
        exact digitVal_digitChar n h
      · rw [if_neg h, decodeDigits_concat,
          ih (n / 10) (Nat.div_lt_self (by omega) (by omega)),
          digitVal_digitChar (n % 10) (Nat.mod_lt n (by omega))]
        omega

theorem decodeDigits_padZeros (w : Nat) (l : List Char) :
    decodeDigits (padZeros w l) = decodeDigits l := by
  unfold padZeros
  generalize w - l.length = j
  induction j with
  | zero => simp
  | succ j ih =>
      rw [List.replicate_succ]
      simpa [decodeDigits, digitVal] using ih

theorem padZeros_length (w : Nat) (l : List Char) (h : l.length ≤ w) :
    (padZeros w l).length = w := by
  simp [padZeros]
  omega

theorem padZeros_all_digits (w : Nat) (l : List Char) (h : ∀ c ∈ l, c.isDigit = true) :
    ∀ c ∈ padZeros w l, c.isDigit = true := by
  intro c hc
  rcases List.mem_append.mp hc with h1 | h1
  · have := List.eq_of_mem_replicate h1
    subst this
    decide
  · exact h c h1

/- ## Claim C1 -/

/-- Claim C1: for every path, read_from_path fails with NoFileExtension when
the path has no extension component, fails with InvalidFileExtension when the
extension is not valid unicode, dispatches the extension against the fixed
table (mp3/wav/aiff to ID3, flac to FLAC/Vorbis, mp4/m4a/m4p/m4b/m4r/m4v to
MP4, opus to Opus), and fails with UnsupportedAudioFormat for every extension
outside that table. -/
theorem c1_read_from_path_dispatch (res : CodecResults) :
    Tag.read_from_path res { extension := none } = .error .NoFileExtension ∧
    Tag.read_from_path res { extension := some .invalid } = .error .InvalidFileExtension ∧
    (∀ ext, ext ∈ id3Extensions →
      (∃ t, Tag.read_from_path res { extension := some (.valid ext) } = .ok (.Id3Tag t)) ∨
      (∃ e, Tag.read_from_path res { extension := some (.valid ext) } = .error (.Id3Error e))) ∧
    ((∃ t, Tag.read_from_path res { extension := some (.valid "flac") } = .ok (.VorbisFlacTag t)) ∨
      (∃ e, Tag.read_from_path res { extension := some (.valid "flac") } = .error (.FlacError e))) ∧
    (∀ ext, ext ∈ mp4Extensions →
      (∃ t, Tag.read_from_path res { extension := some (.valid ext) } = .ok (.Mp4Tag t)) ∨
      (∃ e, Tag.read_from_path res { extension := some (.valid ext) } = .error (.Mp4Error e))) ∧
    ((∃ t, Tag.read_from_path res { extension := some (.valid "opus") } = .ok (.OpusTag t)) ∨
      (∃ e, Tag.read_from_path res { extension := some (.valid "opus") } = .error (.OpusError e))) ∧
    (∀ ext, ext ∉ id3Extensions → ext ≠ "flac" → ext ∉ mp4Extensions → ext ≠ "opus" →
      Tag.read_from_path res { extension := some (.valid ext) } = .error .UnsupportedAudioFormat) := by
  refine ⟨rfl, rfl, ?_, ?_, ?_, ?_, ?_⟩
  · intro ext hmem
    simp only [Tag.read_from_path, if_pos hmem]
    cases hres : res.id3Result with
    | error e =>
        by_cases hk : e.kind = .NoTag
        · exact Or.inl ⟨{}, by simp [hk]⟩
        · exact Or.inr ⟨e, by simp [hk]⟩
    | ok t => exact Or.inl ⟨t, rfl⟩
  · simp only [Tag.read_from_path, if_neg (by decide : ¬("flac" ∈ id3Extensions)), if_pos rfl]
    cases hres : res.flacResult with
    | error e => exact Or.inr ⟨e, rfl⟩
    | ok t => exact Or.inl ⟨t, rfl⟩
  · intro ext hmem
    have h1 : ext ∉ id3Extensions := by
      intro h
      revert hmem
      fin_cases h <;> decide
    have h2 : ext ≠ "flac" := by
      intro h
      subst h
      revert hmem
      decide
    simp only [Tag.read_from_path, if_neg h1, if_neg h2, if_pos hmem]
    cases hres : res.mp4Result with
    | error e =>
        by_cases hk : e.kind = .NoTag
        · exact Or.inl ⟨{}, by simp [hk]⟩
        · exact Or.inr ⟨e, by simp [hk]⟩
    | ok t => exact Or.inl ⟨t, rfl⟩
  · simp only [Tag.read_from_path, if_neg (by decide : ¬("opus" ∈ id3Extensions)),
      if_neg (by decide : ¬(("opus" : String) = "flac")),
      if_neg (by decide : ¬("opus" ∈ mp4Extensions)), if_pos rfl]
    cases hres : res.opusResult with
    | error e => exact Or.inr ⟨e, rfl⟩
    | ok t => exact Or.inl ⟨t, rfl⟩
  · intro ext h1 h2 h3 h4
    simp only [Tag.read_from_path, if_neg h1, if_neg h2, if_neg h3, if_neg h4]

/-- Witness for C1 at concrete inputs: extension txt is unsupported and a
missing extension is NoFileExtension. -/
theorem c1_read_from_path_dispatch_witness :
    Tag.read_from_path
      { id3Result := .ok {}, flacResult := .ok {}, mp4Result := .ok {}, opusResult := .ok {} }
      { extension := some (.valid "txt") } = .error .UnsupportedAudioFormat ∧
    Tag.read_from_path
      { id3Result := .ok {}, flacResult := .ok {}, mp4Result := .ok {}, opusResult := .ok {} }
      { extension := none } = .error .NoFileExtension := by
  constructor
  · exact (c1_read_from_path_dispatch _).2.2.2.2.2.2 "txt"
      (by decide) (by decide) (by decide) (by decide)
  · exact (c1_read_from_path_dispatch _).1

/- ## Claim C2 -/

/-- Claim C2: during read_from_path the codec-specific no-tag error kind is
replaced by a default-constructed empty tag for the ID3 (mp3/wav/aiff) and
MP4 families only; every other id3/mp4 error, and every FLAC or Opus codec
error whatsoever, propagates wrapped in the format-specific error variant. -/
theorem c2_no_tag_recovery (res : CodecResults) :
    (∀ ext, ext ∈ id3Extensions → ∀ e, res.id3Result = .error e → e.kind = .NoTag →
        Tag.read_from_path res { extension := some (.valid ext) } = .ok (.Id3Tag {})) ∧
    (∀ ext, ext ∈ id3Extensions → ∀ e, res.id3Result = .error e → e.kind ≠ .NoTag →
        Tag.read_from_path res { extension := some (.valid ext) } = .error (.Id3Error e)) ∧
    (∀ ext, ext ∈ mp4Extensions → ∀ e, res.mp4Result = .error e → e.kind = .NoTag →
        Tag.read_from_path res { extension := some (.valid ext) } = .ok (.Mp4Tag {})) ∧
    (∀ ext, ext ∈ mp4Extensions → ∀ e, res.mp4Result = .error e → e.kind ≠ .NoTag →
        Tag.read_from_path res { extension := some (.valid ext) } = .error (.Mp4Error e)) ∧
    (∀ e, res.flacResult = .error e →
        Tag.read_from_path res { extension := some (.valid "flac") } = .error (.FlacError e)) ∧
    (∀ e, res.opusResult = .error e →
        Tag.read_from_path res { extension := some (.valid "opus") } = .error (.OpusError e)) := by
  have hmp4aux : ∀ ext, ext ∈ mp4Extensions → ext ∉ id3Extensions ∧ ext ≠ "flac" := by
    intro ext h
    fin_cases h <;> exact ⟨by decide, by decide⟩
  refine ⟨?_, ?_, ?_, ?_, ?_, ?_⟩
  · intro ext hmem e he hk
    simp only [Tag.read_from_path, if_pos hmem, he, hk]
    simp
  · intro ext hmem e he hk
    simp only [Tag.read_from_path, if_pos hmem, he]
    simp [hk]
  · intro ext hmem e he hk
    obtain ⟨h1, h2⟩ := hmp4aux ext hmem
    simp only [Tag.read_from_path, if_neg h1, if_neg h2, if_pos hmem, he, hk]
    simp
  · intro ext hmem e he hk
    obtain ⟨h1, h2⟩ := hmp4aux ext hmem
    simp only [Tag.read_from_path, if_neg h1, if_neg h2, if_pos hmem, he]
    simp [hk]
  · intro e he
    simp only [Tag.read_from_path, if_neg (by decide : ¬("flac" ∈ id3Extensions)),
      if_pos rfl, he]
    simp
  · intro e he
    simp only [Tag.read_from_path, if_neg (by decide : ¬("opus" ∈ id3Extensions)),
      if_neg (by decide : ¬(("opus" : String) = "flac")),
      if_neg (by decide : ¬("opus" ∈ mp4Extensions)), if_pos rfl, he]
    simp

/-- Witness for C2 at concrete inputs: an id3 NoTag error on an mp3 path
yields the default empty ID3 tag; a FLAC codec error on a flac path
propagates wrapped. -/
theorem c2_no_tag_recovery_witness :
    Tag.read_from_path
      { id3Result := .error { kind := .NoTag }, flacResult := .error { code := 7 },
        mp4Result := .error { kind := .NoTag }, opusResult := .error { code := 3 } }
      { extension := some (.valid "mp3") } = .ok (.Id3Tag {}) ∧
    Tag.read_from_path
      { id3Result := .error { kind := .NoTag }, flacResult := .error { code := 7 },
        mp4Result := .error { kind := .NoTag }, opusResult := .error { code := 3 } }
      { extension := some (.valid "flac") } = .error (.FlacError { code := 7 }) := by
  constructor
  · exact (c2_no_tag_recovery _).1 "mp3" (by decide) { kind := .NoTag } rfl rfl
  · exact (c2_no_tag_recovery _).2.2.2.2.1 { code := 7 } rfl

/- ## Claim C3 -/

/-- Claim C3: on an MP4 tag, set_album_info with a cover picture whose MIME
type is outside the closed set bmp/jpeg/png returns InvalidImageFormat, and
the album title and album artist given in the same call have already been
applied to the tag before the failure; nothing else changes. -/
theorem c3_mp4_partial_application (inner : Mp4InternalTag) (album : Album)
    (ti ar : String) (pic : Picture)
    (ht : album.title = some ti) (ha : album.artist = some ar) (hc : album.cover = some pic)
    (hm : pic.mime_type ∉ ["image/bmp", "image/jpeg", "image/png"]) :
    (Tag.set_album_info (.Mp4Tag inner) album).2 = .error .InvalidImageFormat ∧
    (Tag.set_album_info (.Mp4Tag inner) album).1 =
      .Mp4Tag { inner with album := some ti, album_artist := some ar } := by
  have htry : Mp4Img.tryFromPicture pic = .error .InvalidImageFormat := by
    simp only [List.mem_cons, List.mem_singleton, not_or] at hm
    obtain ⟨h1, h2, h3⟩ := hm
    simp [Mp4Img.tryFromPicture, h1, h2, h3]
  constructor <;> simp [Tag.set_album_info, ht, ha, hc, htry]

/-- Witness for C3 at a concrete input: a gif cover on an empty MP4 tag
fails with InvalidImageFormat while the title and artist stick. -/
theorem c3_mp4_partial_application_witness :
    (Tag.set_album_info (.Mp4Tag {})
      { title := some "T", artist := some "AA",
        cover := some { data := [1, 2], mime_type := "image/gif" } }).2 =
      .error .InvalidImageFormat ∧
    (Tag.set_album_info (.Mp4Tag {})
      { title := some "T", artist := some "AA",
        cover := some { data := [1, 2], mime_type := "image/gif" } }).1 =
      .Mp4Tag { album := some "T", album_artist := some "AA" } :=
  c3_mp4_partial_application {} _ "T" "AA" { data := [1, 2], mime_type := "image/gif" }
    rfl rfl rfl (by decide)

/- ## Claim C6 -/

/-- Claim C6: for every Picture whose MIME type is exactly one of image/bmp,
image/jpeg or image/png, conversion to the MP4 native artwork representation
and back reproduces the original data bytes and MIME string exactly. -/
theorem c6_mp4_picture_roundtrip (p : Picture)
    (h : p.mime_type ∈ ["image/bmp", "image/jpeg", "image/png"]) :
    ∃ img, Mp4Img.tryFromPicture p = .ok img ∧ Picture.fromMp4Img img = p := by
  obtain ⟨d, m⟩ := p
  simp at h
  rcases h with h | h | h <;> subst h
  · exact ⟨{ fmt := .Bmp, data := d }, rfl, rfl⟩
  · exact ⟨{ fmt := .Jpeg, data := d }, rfl, rfl⟩
  · exact ⟨{ fmt := .Png, data := d }, rfl, rfl⟩

/-- Witness for C6 at a concrete jpeg picture. -/
theorem c6_mp4_picture_roundtrip_witness :
    ∃ img, Mp4Img.tryFromPicture { data := [7], mime_type := "image/jpeg" } = .ok img ∧
      Picture.fromMp4Img img = { data := [7], mime_type := "image/jpeg" } :=
  c6_mp4_picture_roundtrip { data := [7], mime_type := "image/jpeg" } (by decide)

/- ## Claim C9 -/

/-- Claim C9 evaluation at the failing inputs: on a tag with no album
fields, get_album_info returns some Album with every component absent for
every variant, never none, although the method documentation in the source
and the claim say it returns None; the plain accessors title, artist and
date do return none on such tags. -/
theorem c9_get_album_info_empty_eval :
    Tag.get_album_info Tag.new_empty_id3 =
      some { title := none, artist := none, cover := none } ∧
    Tag.get_album_info Tag.new_empty_flac =
      some { title := none, artist := none, cover := none } ∧
    Tag.get_album_info Tag.new_empty_mp4 =
      some { title := none, artist := none, cover := none } ∧
    Tag.get_album_info (.OpusTag {}) =
      some { title := none, artist := none, cover := none } ∧
    Tag.title Tag.new_empty_id3 = none ∧
    Tag.artist Tag.new_empty_id3 = none ∧
    Tag.date Tag.new_empty_id3 = none ∧
    Tag.title Tag.new_empty_flac = none ∧
    Tag.artist Tag.new_empty_flac = none ∧
    Tag.date Tag.new_empty_flac = none ∧
    Tag.title Tag.new_empty_mp4 = none ∧
    Tag.artist Tag.new_empty_mp4 = none ∧
    Tag.date Tag.new_empty_mp4 = none ∧
    Tag.title (.OpusTag {}) = none ∧
    Tag.artist (.OpusTag {}) = none ∧
    Tag.date (.OpusTag {}) = none := by
  refine ⟨rfl, rfl, rfl, rfl, rfl, rfl, rfl, rfl, rfl, rfl, rfl, rfl, rfl, rfl, rfl, rfl⟩

/- ## Claim C5 -/

/-- Claim C5 counterexample: on an Opus tag whose store holds the ARTIST key
with zero values, the artist getter returns some empty string, not none; the
empty-joined-string filter exists only in the Vorbis/FLAC arm of the source,
which on the same store returns none. -/
theorem c5_artist_join_counterexample :
    Tag.artist (.OpusTag { comments := [("ARTIST", [])] }) = some "" ∧
    Tag.artist (.VorbisFlacTag { comments := [("ARTIST", [])] }) = none :=
  ⟨rfl, rfl⟩

/-- Claim C5 amended: both the Vorbis/FLAC and the Opus artist getters join
all stored ARTIST values with the two-character separator; the Vorbis/FLAC
arm filters an empty joined string to none, while the Opus arm returns none
exactly when the ARTIST key is absent and otherwise returns the joined
string even when it is empty. -/
theorem c5_artist_join_amended (fl : FlacInternalTag) (op : OpusInternalTag)
    (vs : List String) :
    (getEntry fl.comments "ARTIST" = some vs →
        Tag.artist (.VorbisFlacTag fl) =
          if joinSep vs = "" then none else some (joinSep vs)) ∧
    (getEntry fl.comments "ARTIST" = none → Tag.artist (.VorbisFlacTag fl) = none) ∧
    (getEntry op.comments "ARTIST" = some vs → Tag.artist (.OpusTag op) = some (joinSep vs)) ∧
    (getEntry op.comments "ARTIST" = none → Tag.artist (.OpusTag op) = none) ∧
    joinSep ["A", "B"] = "A; B" := by
  refine ⟨?_, ?_, ?_, ?_, rfl⟩ <;> intro h <;> simp [Tag.artist, h]

/-- Witness for C5 amended at concrete inputs: the two stored values A and B
read back joined as A; B on both variants. -/
theorem c5_artist_join_witness :
    Tag.artist (.VorbisFlacTag { comments := [("ARTIST", ["A", "B"])] }) = some "A; B" ∧
    Tag.artist (.OpusTag { comments := [("ARTIST", ["A", "B"])] }) = some "A; B" := by
  constructor
  · have h := (c5_artist_join_amended { comments := [("ARTIST", ["A", "B"])] }
      { comments := [("ARTIST", ["A", "B"])] } ["A", "B"]).1 rfl
    rw [h]
    rfl
  · exact (c5_artist_join_amended { comments := [("ARTIST", ["A", "B"])] }
      { comments := [("ARTIST", ["A", "B"])] } ["A", "B"]).2.2.1 rfl

/- ## Claim C7 -/

/-- Searching with a predicate after filtering with its negation finds nothing. -/
theorem find?_filter_neg {α : Type} (l : List α) (p : α → Bool) :
    ((l.filter fun a => !p a).find? p) = none := by
  induction l with
  | nil => rfl
  | cons a rest ih =>
      by_cases h : p a
      · simp [List.filter_cons, h, ih]
      · simp [List.filter_cons, List.find?_cons, h, ih]

/-- Claim C7: on a Vorbis/FLAC tag, remove_all_album_info removes all three
album-artist key spellings ALBUMARTIST, ALBUM ARTIST and ALBUM_ARTIST, and
a subsequent get_album_info yields an Album whose artist component is
absent, whatever set of spellings was previously present. -/
theorem c7_vorbis_remove_album_artist (fl : FlacInternalTag) :
    ∃ fl2, Tag.remove_all_album_info (.VorbisFlacTag fl) = .VorbisFlacTag fl2 ∧
      getEntry fl2.comments "ALBUMARTIST" = none ∧
      getEntry fl2.comments "ALBUM ARTIST" = none ∧
      getEntry fl2.comments "ALBUM_ARTIST" = none ∧
      Tag.get_album_info (.VorbisFlacTag fl2) =
        some { title := none, artist := none, cover := none } := by
  refine ⟨_, rfl, ?_, ?_, ?_, ?_⟩
  · rw [getEntry_removeEntry_ne _ _ _ (by decide), getEntry_removeEntry_ne _ _ _ (by decide),
      getEntry_removeEntry_self]
  · rw [getEntry_removeEntry_ne _ _ _ (by decide), getEntry_removeEntry_self]
  · rw [getEntry_removeEntry_self]
  · have hAlbum :
        getEntry (removeEntry (removeEntry (removeEntry (removeEntry fl.comments "ALBUM")
          "ALBUMARTIST") "ALBUM ARTIST") "ALBUM_ARTIST") "ALBUM" = none := by
      rw [getEntry_removeEntry_ne _ _ _ (by decide), getEntry_removeEntry_ne _ _ _ (by decide),
        getEntry_removeEntry_ne _ _ _ (by decide), getEntry_removeEntry_self]
    have hArtist :
        getEntry (removeEntry (removeEntry (removeEntry (removeEntry fl.comments "ALBUM")
          "ALBUMARTIST") "ALBUM ARTIST") "ALBUM_ARTIST") "ALBUM_ARTIST" = none :=
      getEntry_removeEntry_self _ _
    have hCover := find?_filter_neg fl.pictures (fun p => isCoverFront p.picture_type)
    simp [Tag.get_album_info, hAlbum, hArtist, hCover]

/- ## Claim C8 -/

/-- Claim C8 counterexample: an Opus tag storing an album artist only under
the ALBUMARTIST comment key reads back an absent album artist, because the
get_album_info Opus arm reads the ALBUM_ARTIST key; so the claim that
get_album_info reads the ALBUMARTIST comment is false. -/
theorem c8_opus_album_artist_counterexample :
    getEntry ({ comments := [("ALBUMARTIST", ["X"])] } : OpusInternalTag).comments
      "ALBUMARTIST" = some ["X"] ∧
    Tag.get_album_info (.OpusTag { comments := [("ALBUMARTIST", ["X"])] }) =
      some { title := none, artist := none, cover := none } :=
  ⟨rfl, rfl⟩

/-- Claim C8 amended: on an Opus tag, get_album_info reads the album artist
from the ALBUM_ARTIST comment key, and set_album_info appends the album
artist under both the ALBUMARTIST and the ALBUM_ARTIST keys. -/
theorem c8_opus_album_artist_amended (op : OpusInternalTag) (album : Album) (ar : String)
    (h : album.artist = some ar) :
    (∃ alb, Tag.get_album_info (.OpusTag op) = some alb ∧
        alb.artist = (getEntry op.comments "ALBUM_ARTIST").bind List.head?) ∧
    (∃ op2, (Tag.set_album_info (.OpusTag op) album).1 = .OpusTag op2 ∧
        getEntry op2.comments "ALBUMARTIST" =
          some ((getEntry op.comments "ALBUMARTIST").getD [] ++ [ar]) ∧
        getEntry op2.comments "ALBUM_ARTIST" =
          some ((getEntry op.comments "ALBUM_ARTIST").getD [] ++ [ar])) := by
  have key : ∀ base : List (String × List String),
      getEntry (addOne (addOne base "ALBUMARTIST" ar) "ALBUM_ARTIST" ar) "ALBUMARTIST" =
        some ((getEntry base "ALBUMARTIST").getD [] ++ [ar]) ∧
      getEntry (addOne (addOne base "ALBUMARTIST" ar) "ALBUM_ARTIST" ar) "ALBUM_ARTIST" =
        some ((getEntry base "ALBUM_ARTIST").getD [] ++ [ar]) := by
    intro base
    constructor
    · rw [getEntry_addOne_ne _ _ _ _ (by decide), getEntry_addOne_self]
    · rw [getEntry_addOne_self, getEntry_addOne_ne _ _ _ _ (by decide)]
  refine ⟨⟨_, rfl, rfl⟩, ?_⟩
  rcases hti : album.title with _ | ti <;> rcases hc : album.cover with _ | pic <;>
    simp only [Tag.set_album_info, h, hti, hc] <;>
    refine ⟨_, rfl, ?_, ?_⟩
  · exact (key op.comments).1
  · exact (key op.comments).2
  · exact (key op.comments).1
  · exact (key op.comments).2
  · rw [(key (addOne op.comments "ALBUM" ti)).1, getEntry_addOne_ne _ _ _ _ (by decide)]
  · rw [(key (addOne op.comments "ALBUM" ti)).2, getEntry_addOne_ne _ _ _ _ (by decide)]
  · rw [(key (addOne op.comments "ALBUM" ti)).1, getEntry_addOne_ne _ _ _ _ (by decide)]
  · rw [(key (addOne op.comments "ALBUM" ti)).2, getEntry_addOne_ne _ _ _ _ (by decide)]

/-- Witness for C8 amended at a concrete input: setting the album artist Z
on an empty Opus tag stores it under both keys. -/
theorem c8_opus_album_artist_witness :
    (∃ alb, Tag.get_album_info (.OpusTag {}) = some alb ∧
        alb.artist = (getEntry ({} : OpusInternalTag).comments "ALBUM_ARTIST").bind List.head?) ∧
    (∃ op2, (Tag.set_album_info (.OpusTag {}) { artist := some "Z" }).1 = .OpusTag op2 ∧
        getEntry op2.comments "ALBUMARTIST" =
          some ((getEntry ({} : OpusInternalTag).comments "ALBUMARTIST").getD [] ++ ["Z"]) ∧
        getEntry op2.comments "ALBUM_ARTIST" =
          some ((getEntry ({} : OpusInternalTag).comments "ALBUM_ARTIST").getD [] ++ ["Z"])) :=
  c8_opus_album_artist_amended {} { artist := some "Z" } "Z" rfl

/- ## Claim C4 -/

/-- Claim C4 counterexample: the claim quantifies over every Timestamp, but
for year 10000 the stored date text has a five-digit year and eleven
characters, so it is not of the shape YYYY-MM-DD with a four-digit year. -/
theorem c4_date_format_counterexample :
    formatDate { year := 10000 } = "10000-00-00" ∧
    ("10000-00-00" : String).length ≠ 10 := by
  constructor
  · decide
  · decide

/-- Claim C4 amended: for every Timestamp whose year lies in 0..9999 and
whose month and day, when present, are at most 99, the date text built for
the plain-text formats is exactly YYYY-MM-DD: four decimal digits decoding
to the year, a dash, two decimal digits decoding to the month or 00 when
absent, a dash, two decimal digits decoding to the day or 00 when absent;
hour, minute and second never influence it; and set_date stores exactly
this text on the Vorbis/FLAC, MP4 and Opus variants. -/
theorem c4_date_format_amended (t : Timestamp) (hy0 : 0 ≤ t.year) (hy : t.year ≤ 9999)
    (hm : t.month.getD 0 ≤ 99) (hd : t.day.getD 0 ≤ 99) :
    (∃ ys ms ds : List Char,
      formatDate t = String.mk (ys ++ '-' :: (ms ++ '-' :: ds)) ∧
      ys.length = 4 ∧ ms.length = 2 ∧ ds.length = 2 ∧
      (∀ c ∈ ys, c.isDigit = true) ∧ (∀ c ∈ ms, c.isDigit = true) ∧
      (∀ c ∈ ds, c.isDigit = true) ∧
      decodeDigits ys = t.year.toNat ∧
      decodeDigits ms = t.month.getD 0 ∧
      decodeDigits ds = t.day.getD 0) ∧
    (∀ h2 mi s2, formatDate { t with hour := h2, minute := mi, second := s2 } = formatDate t) ∧
    (∀ fl, ∃ fl2, Tag.set_date (.VorbisFlacTag fl) t = .VorbisFlacTag fl2 ∧
        getEntry fl2.comments "DATE" = some [formatDate t]) ∧
    (∀ mp, ∃ mp2, Tag.set_date (.Mp4Tag mp) t = .Mp4Tag mp2 ∧
        getEntry mp2.dataAtoms DATE_FOURCC = some (.Utf8 (formatDate t))) ∧
    (∀ op, ∃ op2, Tag.set_date (.OpusTag op) t = .OpusTag op2 ∧
        getEntry op2.comments "DATE" = some [formatDate t]) := by
  have hpow4 : (10 : Nat) ^ 4 = 10000 := by norm_num
  have hpow2 : (10 : Nat) ^ 2 = 100 := by norm_num
  refine ⟨?_, ?_, ?_, ?_, ?_⟩
  · refine ⟨padZeros 4 (natDigits t.year.toNat), fmtNat02 (t.month.getD 0),
      fmtNat02 (t.day.getD 0), ?_, ?_, ?_, ?_, ?_, ?_, ?_, ?_, ?_, ?_⟩
    · simp only [formatDate, fmtInt04, if_pos hy0, fmtNat02]
    · exact padZeros_length 4 _ (natDigits_length_le 4 t.year.toNat (by omega) (by omega))
    · exact padZeros_length 2 _ (natDigits_length_le 2 (t.month.getD 0) (by omega) (by omega))
    · exact padZeros_length 2 _ (natDigits_length_le 2 (t.day.getD 0) (by omega) (by omega))
    · exact padZeros_all_digits 4 _ (natDigits_all_digits _)
    · exact padZeros_all_digits 2 _ (natDigits_all_digits _)
    · exact padZeros_all_digits 2 _ (natDigits_all_digits _)
    · rw [decodeDigits_padZeros, decodeDigits_natDigits]
    · simp only [fmtNat02]
      rw [decodeDigits_padZeros, decodeDigits_natDigits]
    · simp only [fmtNat02]
      rw [decodeDigits_padZeros, decodeDigits_natDigits]
  · intro h2 mi s2
    rfl
  · intro fl
    exact ⟨_, rfl, by rw [getEntry_setEntry_self]⟩
  · intro mp
    exact ⟨_, rfl, by rw [getEntry_setEntry_self]⟩
  · intro op
    refine ⟨_, rfl, ?_⟩
    rw [getEntry_addOne_self, getEntry_removeEntry_self]
    rfl

/-- Witness for C4: the Timestamp parsed from 2024-03-15T10:30 satisfies the
amended bounds, formats back as exactly 2024-03-15, and decomposes as the
amended claim states. -/
theorem c4_date_format_witness :
    Timestamp.from_str "2024-03-15T10:30" =
      .ok { year := 2024, month := some 3, day := some 15,
            hour := some 10, minute := some 30, second := none } ∧
    formatDate { year := 2024, month := some 3, day := some 15,
                 hour := some 10, minute := some 30, second := none } = "2024-03-15" ∧
    (∃ ys ms ds : List Char,
      formatDate { year := 2024, month := some 3, day := some 15,
                   hour := some 10, minute := some 30, second := none } =
        String.mk (ys ++ '-' :: (ms ++ '-' :: ds)) ∧
      ys.length = 4 ∧ ms.length = 2 ∧ ds.length = 2 ∧
      (∀ c ∈ ys, c.isDigit = true) ∧ (∀ c ∈ ms, c.isDigit = true) ∧
      (∀ c ∈ ds, c.isDigit = true) ∧
      decodeDigits ys = (2024 : Int).toNat ∧
      decodeDigits ms = (some 3).getD 0 ∧
      decodeDigits ds = (some 15).getD 0) := by
  refine ⟨by decide, by decide, ?_⟩
  exact (c4_date_format_amended
    { year := 2024, month := some 3, day := some 15,
      hour := some 10, minute := some 30, second := none }
    (by decide) (by decide) (by decide) (by decide)).1

/- ## Claim C10 -/

/-- Claim C10: copy_to returns a Tag and surfaces no error; when the
destination set_album_info fails, the error value is discarded, the partial
album write is kept, and the title, artist and date present on the source
are still copied onto that partially updated destination through the
corresponding setters. -/
theorem c10_copy_to_discards_error (src dst : Tag) (album : Album) (e : Error)
    (h1 : Tag.get_album_info src = some album)
    (_h2 : (Tag.set_album_info dst album).2 = .error e) :
    Tag.copy_to src dst =
      (match Tag.date src with
        | some d => fun t => Tag.set_date t d
        | none => id)
      ((match Tag.artist src with
        | some ar => fun t => Tag.set_artist t ar
        | none => id)
      ((match Tag.title src with
        | some ti => fun t => Tag.set_title t ti
        | none => id)
      ((Tag.set_album_info dst album).1))) := by
  simp only [Tag.copy_to, h1]
  cases hT : Tag.title src <;> cases hA : Tag.artist src <;> cases hD : Tag.date src <;> rfl

/-- Witness for C10 at a concrete input: an ID3 source carrying a gif cover
copied onto an empty MP4 destination makes set_album_info fail with
InvalidImageFormat, yet the destination ends up with the album title, album
artist, title, artist and date of the source and no artwork. -/
theorem c10_copy_to_discards_error_witness :
    Tag.copy_to
      (.Id3Tag { title := some "t", artist := some "a", album := some "al",
                 album_artist := some "aa",
                 date_released := some { year := 2020, month := some 1, day := some 2 },
                 pictures := [{ mime_type := "image/gif", picture_type := .CoverFront,
                                description := "", data := [9] }] })
      (.Mp4Tag {}) =
      .Mp4Tag { title := some "t", artist := some "a", album := some "al",
                album_artist := some "aa",
                dataAtoms := [(DATE_FOURCC, .Utf8 "2020-01-02")] } := by
  have h := c10_copy_to_discards_error
    (.Id3Tag { title := some "t", artist := some "a", album := some "al",
               album_artist := some "aa",
               date_released := some { year := 2020, month := some 1, day := some 2 },
               pictures := [{ mime_type := "image/gif", picture_type := .CoverFront,
                              description := "", data := [9] }] })
    (.Mp4Tag {})
    { title := some "al", artist := some "aa",
      cover := some { data := [9], mime_type := "image/gif" } }
    .InvalidImageFormat rfl rfl
  rw [h]
  decide

end Multitag
